import Mathlib

/-!
Shallow embedding of the tensorx-backend API (src/api/index.py).

The program is a FastAPI application over a relational store with three
tables: users, sessions and bots.  We model the store as explicit lists of
rows and each endpoint handler as a pure function from the store (plus the
request data and the current time) to a result and an updated store.
Timestamps are natural numbers (seconds); the SQL NOW() value is passed in
as an explicit parameter.  Fresh identifiers produced by uuid4 are passed
in as explicit parameters as well.  JSON values are modelled by an
inductive type; JSON objects (Python dicts, Postgres jsonb objects) are
association lists keyed by strings, with lookup semantics given by the
first matching key.
-/

namespace TensorX

/-- JSON values, as stored in the settings columns and onboarding payloads. -/
inductive Json where
  | null : Json
  | bool : Bool → Json
  | num : Int → Json
  | str : String → Json
  | arr : List Json → Json
  | obj : List (String × Json) → Json

/-- A JSON object as an association list (Python dict / Postgres jsonb object). -/
abbrev JsonMap := List (String × Json)

/-- Lookup of a key in a JSON object: first binding wins. -/
def jsonLookup (m : JsonMap) (k : String) : Option Json :=
  (m.find? (fun p => decide (p.1 = k))).map (·.2)

/-- Postgres jsonb concatenation a || b on objects: bindings of b override
bindings of a with the same key; all other bindings of a are kept. -/
def jsonbConcat (a b : JsonMap) : JsonMap :=
  a.filter (fun p => decide ((b.find? (fun q => decide (q.1 = p.1))).isNone)) ++ b

/-- Row of the users table (src/api/index.py lines 115 to 133 name the
columns used; onboarding_completed and settings carry the column defaults
false and the empty object, per the data model in the spec since the DDL is
not part of src). -/
structure User where
  user_id : String
  email : String
  name : String
  picture : Option String
  onboarding_completed : Bool
  settings : JsonMap

/-- Row of the sessions table (src/api/index.py lines 144 to 147). -/
structure Session where
  session_id : String
  user_id : String
  session_token : String
  expires_at : Nat

/-- Row of the bots table (src/api/index.py lines 381 to 385).  Monetary
columns carry no arithmetic in this program, so they are modelled as
rationals. -/
structure Bot where
  bot_id : String
  user_id : String
  name : String
  strategy : String
  trading_pair : String
  exchange : String
  initial_investment : Rat
  current_value : Rat
  is_virtual : Bool
  settings : JsonMap
  status : String
  created_at : Nat
  updated_at : Nat

/-- The relational store. -/
structure DB where
  users : List User
  sessions : List Session
  bots : List Bot

/-- Profile data returned by the identity exchange (or the test bypass):
the fields of auth_data read by create_session. -/
structure AuthData where
  email : String
  name : String
  picture : Option String

/-- The fixed identity returned for the sentinel test session id
(src/api/index.py lines 86 to 92). -/
def testAuthData : AuthData :=
  { email := "test@tensorx.com"
    name := "Test User"
    picture := some "https://ui-avatars.com/api/?name=Test+User&background=06b6d4&color=fff" }

/-- Resolution of an external session id to profile data
(src/api/index.py lines 86 to 104): the sentinel test_session_id bypasses
the exchange; otherwise the external exchange answers (none models a
non-200 upstream response, which the handler turns into a 401). -/
def resolveExternal (exchange : String → Option AuthData) (session_id : String) :
    Option AuthData :=
  if session_id = "test_session_id" then some testAuthData else exchange session_id

/-- Seconds in seven days: the session lifetime and the cookie max_age
(src/api/index.py lines 138 and 159). -/
def sevenDays : Nat := 7 * 24 * 60 * 60

/-- The user lookup or creation step of create_session
(src/api/index.py lines 114 to 133): find a user by email; if found,
update name and picture in place (UPDATE ... WHERE email, RETURNING the
first updated row); otherwise insert a new user with the fresh id.
Returns the resulting user row and the new users table. -/
def upsertUser (users : List User) (a : AuthData) (freshUserId : String) :
    User × List User :=
  match users.find? (fun u => decide (u.email = a.email)) with
  | some u0 =>
      ({ u0 with name := a.name, picture := a.picture },
       users.map (fun u =>
         if u.email = a.email then { u with name := a.name, picture := a.picture } else u))
  | none =>
      let u : User :=
        { user_id := freshUserId, email := a.email, name := a.name,
          picture := a.picture, onboarding_completed := false, settings := [] }
      (u, users ++ [u])

/-- The database part of the create_session handler
(src/api/index.py lines 110 to 171), after the external exchange resolved
auth_data: upsert the user by email, delete all existing sessions of that
user, insert one new session with the fresh token and expiry now plus
seven days, and return the user row and the raw token together with the
updated store. -/
def create_session (db : DB) (a : AuthData)
    (freshUserId freshToken freshSessionId : String) (now : Nat) :
    (User × String) × DB :=
  let (u, users) := upsertUser db.users a freshUserId
  let newSession : Session :=
    { session_id := freshSessionId, user_id := u.user_id,
      session_token := freshToken, expires_at := now + sevenDays }
  let sessions :=
    db.sessions.filter (fun s => decide (s.user_id ≠ u.user_id)) ++ [newSession]
  ((u, freshToken), { db with users := users, sessions := sessions })

/-- Whether the first list of characters starts with the second
(Python str.startswith). -/
def listStartsWith : List Char → List Char → Bool
  | _, [] => true
  | [], _ :: _ => false
  | c :: cs, d :: ds => c = d && listStartsWith cs ds

/-- Python str.startswith on strings. -/
def strStartsWith (s p : String) : Bool := listStartsWith s.toList p.toList

/-- Helper for pySplitSpace: accumulates the current field in reverse. -/
def splitSpacesAux : List Char → List Char → List String
  | [], acc => [String.mk acc.reverse]
  | c :: cs, acc =>
      if c = ' ' then String.mk acc.reverse :: splitSpacesAux cs []
      else splitSpacesAux cs (c :: acc)

/-- Python str.split with separator a single space: splits at every space
and keeps empty fields. -/
def pySplitSpace (s : String) : List String := splitSpacesAux s.toList []

/-- Token extraction from the Authorization header
(src/api/index.py lines 49 to 52): the header must be truthy and start
with the seven characters Bearer-space, and the token is the second
space-separated field of the header. -/
def headerToken (authHeader : Option String) : Option String :=
  match authHeader with
  | some h =>
      if h ≠ "" ∧ strStartsWith h "Bearer " then (pySplitSpace h).get? 1 else none
  | none => none

/-- get_session_token (src/api/index.py lines 45 to 52): the cookie value
when it is present and non-empty (Python truthiness), otherwise the
Authorization header fallback. -/
def get_session_token (cookie authHeader : Option String) : Option String :=
  match cookie with
  | some t => if t ≠ "" then some t else headerToken authHeader
  | none => headerToken authHeader

/-- The SQL lookup of get_current_user (src/api/index.py lines 63 to 68):
join sessions to users on user_id, filtered by session_token = token and
expires_at > NOW(); fetchone takes the first matching row. -/
def resolveSession (db : DB) (token : String) (now : Nat) : Option User :=
  match db.sessions.find?
      (fun s => decide (s.session_token = token ∧ now < s.expires_at)) with
  | some s => db.users.find? (fun u => decide (u.user_id = s.user_id))
  | none => none

/-- get_current_user (src/api/index.py lines 55 to 73): extract the token
from the cookie or the Authorization header, fail 401 when it is missing
or empty (Python `if not token`), fail 401 when no non-expired session row
matches, otherwise return the joined user row. -/
def get_current_user (db : DB) (cookie authHeader : Option String) (now : Nat) :
    Except Nat User :=
  match get_session_token cookie authHeader with
  | none => .error 401
  | some tok =>
      if tok = "" then .error 401
      else
        match resolveSession db tok now with
        | some u => .ok u
        | none => .error 401

/-- logout (src/api/index.py lines 187 to 202): when a token was supplied
and non-empty, delete the session rows matching it; always succeeds. -/
def logout (db : DB) (cookie authHeader : Option String) : DB :=
  match get_session_token cookie authHeader with
  | some tok =>
      if tok ≠ "" then
        { db with sessions := db.sessions.filter (fun s => decide (s.session_token ≠ tok)) }
      else db
  | none => db

/-- complete_onboarding (src/api/index.py lines 204 to 224), after the
authenticated user resolved to user_id uid: set onboarding_completed and
merge the object with single key onboarding into settings via jsonb
concatenation, on every user row with that user_id. -/
def complete_onboarding (db : DB) (uid : String) (payload : Json) : DB :=
  { db with users := db.users.map (fun u =>
      if u.user_id = uid then
        { u with onboarding_completed := true,
                 settings := jsonbConcat u.settings [("onboarding", payload)] }
      else u) }

/-- The BotCreate request model with its pydantic defaults
(src/api/index.py lines 30 to 37). -/
structure BotCreate where
  name : String
  strategy : String
  trading_pair : String
  exchange : String
  initial_investment : Rat := 1000
  is_virtual : Bool := true
  settings : JsonMap := []

/-- The BotUpdate request model (src/api/index.py lines 39 to 42): every
field optional, defaulting to None. -/
structure BotUpdate where
  name : Option String := none
  status : Option String := none
  settings : Option JsonMap := none

/-- create_bot (src/api/index.py lines 371 to 391), after authentication
resolved uid: insert a bot row with current_value equal to
initial_investment and status stopped, and return the persisted row.  The
created_at and updated_at columns are filled by the store; modelled from
the spec data model as the insertion time. -/
def create_bot (db : DB) (uid : String) (bc : BotCreate) (freshBotId : String)
    (now : Nat) : Bot × DB :=
  let b : Bot :=
    { bot_id := freshBotId, user_id := uid, name := bc.name,
      strategy := bc.strategy, trading_pair := bc.trading_pair,
      exchange := bc.exchange, initial_investment := bc.initial_investment,
      current_value := bc.initial_investment, is_virtual := bc.is_virtual,
      settings := bc.settings, status := "stopped",
      created_at := now, updated_at := now }
  (b, { db with bots := db.bots ++ [b] })

/-- The row scope shared by every single-bot operation: bot_id and the
authenticated user_id must both match. -/
def botScope (uid bid : String) (b : Bot) : Bool :=
  decide (b.bot_id = bid ∧ b.user_id = uid)

/-- get_bots (src/api/index.py lines 355 to 369): all bots of the user.
The ORDER BY created_at DESC of the SQL is kept as a sort by descending
created_at. -/
def get_bots (db : DB) (uid : String) : List Bot :=
  (db.bots.filter (fun b => decide (b.user_id = uid))).mergeSort
    (fun a b => decide (b.created_at ≤ a.created_at))

/-- get_bot (src/api/index.py lines 393 to 409): the first row matching
the scope, else 404. -/
def get_bot (db : DB) (uid bid : String) : Except Nat Bot :=
  match db.bots.find? (botScope uid bid) with
  | some b => .ok b
  | none => .error 404

/-- The SET clause that update_bot builds dynamically
(src/api/index.py lines 420 to 433): a field is assigned only when the
request value is truthy in Python, so None, the empty string and the empty
object are all skipped; updated_at is always set to NOW(). -/
def applyUpdate (bu : BotUpdate) (now : Nat) (b : Bot) : Bot :=
  let b1 := match bu.name with
    | some n => if n ≠ "" then { b with name := n } else b
    | none => b
  let b2 := match bu.status with
    | some s => if s ≠ "" then { b1 with status := s } else b1
    | none => b1
  let b3 := match bu.settings with
    | some m => match m with
        | [] => b2
        | _ :: _ => { b2 with settings := m }
    | none => b2
  { b3 with updated_at := now }

/-- update_bot (src/api/index.py lines 411 to 449): apply the dynamic SET
clause to every row matching the scope, commit, then return the first
updated row or 404 when none matched.  The commit happens before the 404
check, so the (unchanged) store is returned in both branches. -/
def update_bot (db : DB) (uid bid : String) (bu : BotUpdate) (now : Nat) :
    Except Nat Bot × DB :=
  let bots := db.bots.map (fun b => if botScope uid bid b then applyUpdate bu now b else b)
  let db2 := { db with bots := bots }
  match bots.find? (botScope uid bid) with
  | some b => (.ok b, db2)
  | none => (.error 404, db2)

/-- delete_bot (src/api/index.py lines 451 to 469): delete every row
matching the scope, commit, then 404 when none matched. -/
def delete_bot (db : DB) (uid bid : String) : Except Nat Unit × DB :=
  let deleted := db.bots.find? (botScope uid bid)
  let db2 := { db with bots := db.bots.filter (fun b => !botScope uid bid b) }
  match deleted with
  | some _ => (.ok (), db2)
  | none => (.error 404, db2)

/-- start_bot (src/api/index.py lines 471 to 491): unconditionally set
status to running and updated_at to NOW() on every row matching the scope,
commit, then return the first updated row or 404 when none matched. -/
def start_bot (db : DB) (uid bid : String) (now : Nat) : Except Nat Bot × DB :=
  let bots := db.bots.map (fun b =>
    if botScope uid bid b then { b with status := "running", updated_at := now } else b)
  let db2 := { db with bots := bots }
  match bots.find? (botScope uid bid) with
  | some b => (.ok b, db2)
  | none => (.error 404, db2)

/-- stop_bot (src/api/index.py lines 493 to 513): unconditionally set
status to stopped and updated_at to NOW() on every row matching the scope,
commit, then return the first updated row or 404 when none matched. -/
def stop_bot (db : DB) (uid bid : String) (now : Nat) : Except Nat Bot × DB :=
  let bots := db.bots.map (fun b =>
    if botScope uid bid b then { b with status := "stopped", updated_at := now } else b)
  let db2 := { db with bots := bots }
  match bots.find? (botScope uid bid) with
  | some b => (.ok b, db2)
  | none => (.error 404, db2)

/-! Concrete fixtures used to evaluate the theorems on closed inputs. -/

/-- An empty store. -/
def emptyDB : DB := { users := [], sessions := [], bots := [] }

/-- A concrete user row. -/
def sampleUser : User :=
  { user_id := "u1", email := "a@b.c", name := "A", picture := none,
    onboarding_completed := false, settings := [("theme", Json.str "dark")] }

/-- A concrete bot row owned by sampleUser. -/
def sampleBot : Bot :=
  { bot_id := "bot_1", user_id := "u1", name := "Bot1", strategy := "grid",
    trading_pair := "BTC/USDT", exchange := "binance", initial_investment := 1000,
    current_value := 1000, is_virtual := true, settings := [], status := "stopped",
    created_at := 0, updated_at := 0 }

/-- A concrete store holding sampleUser and sampleBot. -/
def sampleDB : DB := { users := [sampleUser], sessions := [], bots := [sampleBot] }

/-- A concrete unexpired session row for sampleUser. -/
def sampleSession : Session :=
  { session_id := "sid1", user_id := "u1", session_token := "sess_abc123",
    expires_at := 1000 }

/-- A concrete store holding sampleUser, sampleSession and sampleBot. -/
def sampleSessionDB : DB :=
  { users := [sampleUser], sessions := [sampleSession], bots := [sampleBot] }

/-! General lemmas about list lookup used throughout. -/

/-- find? over a map by a function that does not change the predicate. -/
theorem find?_map_pres {α : Type} (f : α → α) (p : α → Bool)
    (h : ∀ a, p (f a) = p a) (l : List α) :
    (l.map f).find? p = (l.find? p).map f := by
  rw [List.find?_map]
  have hpf : p ∘ f = p := funext h
  rw [hpf]

/-- In a list whose keys are nodup, searching for the key of a member
finds exactly that member. -/
theorem find?_key_of_nodup {α β : Type} [DecidableEq β] (key : α → β)
    (l : List α) (hnd : (l.map key).Nodup) {a : α} (ha : a ∈ l) :
    l.find? (fun x => decide (key x = key a)) = some a := by
  induction l with
  | nil => cases ha
  | cons b t ih =>
    rw [List.map_cons, List.nodup_cons] at hnd
    by_cases hk : key b = key a
    · have hba : b = a := by
        rcases List.mem_cons.mp ha with h1 | h1
        · exact h1.symm
        · exact absurd (hk ▸ List.mem_map_of_mem key h1) hnd.1
      rw [List.find?_cons_of_pos _ (by simpa using hk), hba]
    · have h1 : a ∈ t := by
        rcases List.mem_cons.mp ha with h2 | h2
        · exact absurd (h2 ▸ rfl) hk
        · exact h2
      rw [List.find?_cons_of_neg _ (by simpa using hk)]
      exact ih hnd.2 h1

/-! Lemmas about the dynamic update clause. -/

/-- applyUpdate never changes the scope columns bot_id and user_id, nor
any column outside the SET clause, and always sets updated_at. -/
theorem applyUpdate_frame (bu : BotUpdate) (now : Nat) (b : Bot) :
    (applyUpdate bu now b).bot_id = b.bot_id ∧
    (applyUpdate bu now b).user_id = b.user_id ∧
    (applyUpdate bu now b).strategy = b.strategy ∧
    (applyUpdate bu now b).trading_pair = b.trading_pair ∧
    (applyUpdate bu now b).exchange = b.exchange ∧
    (applyUpdate bu now b).initial_investment = b.initial_investment ∧
    (applyUpdate bu now b).current_value = b.current_value ∧
    (applyUpdate bu now b).is_virtual = b.is_virtual ∧
    (applyUpdate bu now b).created_at = b.created_at ∧
    (applyUpdate bu now b).updated_at = now := by
  obtain ⟨na, st, se⟩ := bu
  rcases na with _ | na <;> rcases st with _ | st <;> rcases se with _ | ⟨_ | ⟨p, m⟩⟩ <;>
    simp only [applyUpdate] <;> (try split_ifs) <;> simp_all

/-- The scope predicate is invariant under applyUpdate. -/
theorem botScope_applyUpdate (uid bid : String) (bu : BotUpdate) (now : Nat) (b : Bot) :
    botScope uid bid (applyUpdate bu now b) = botScope uid bid b := by
  unfold botScope
  rw [(applyUpdate_frame bu now b).1, (applyUpdate_frame bu now b).2.1]

/-- When a row matches the scope, update_bot returns that row with the SET
clause applied, and the stored table holds the same updated row. -/
theorem update_bot_ok (db : DB) (uid bid : String) (bu : BotUpdate) (now : Nat) (b : Bot)
    (hfind : db.bots.find? (botScope uid bid) = some b) :
    (update_bot db uid bid bu now).1 = .ok (applyUpdate bu now b) ∧
    (update_bot db uid bid bu now).2.bots.find? (botScope uid bid)
      = some (applyUpdate bu now b) := by
  have hb : botScope uid bid b = true := List.find?_some hfind
  have hpres : ∀ x, botScope uid bid
      (if botScope uid bid x then applyUpdate bu now x else x) = botScope uid bid x := by
    intro x
    by_cases hx : botScope uid bid x
    · rw [if_pos hx, botScope_applyUpdate]
    · rw [if_neg hx]
  have hmap := find?_map_pres
    (fun x => if botScope uid bid x then applyUpdate bu now x else x)
    (botScope uid bid) hpres db.bots
  simp only [update_bot]
  rw [hmap, hfind]
  simp [hb, hmap, hfind]

/-- Field equations for applyUpdate: a truthy name in the request is
written, an absent or empty one is skipped. -/
theorem applyUpdate_name (bu : BotUpdate) (now : Nat) (b : Bot) :
    (∀ n, bu.name = some n → n ≠ "" → (applyUpdate bu now b).name = n) ∧
    ((bu.name = none ∨ bu.name = some "") → (applyUpdate bu now b).name = b.name) := by
  obtain ⟨na, st, se⟩ := bu
  rcases na with _ | na <;> rcases st with _ | st <;> rcases se with _ | ⟨_ | ⟨p, m⟩⟩ <;>
    simp only [applyUpdate] <;> (try split_ifs) <;> simp_all

/-- Field equations for applyUpdate: a truthy status in the request is
written, an absent or empty one is skipped. -/
theorem applyUpdate_status (bu : BotUpdate) (now : Nat) (b : Bot) :
    (∀ s, bu.status = some s → s ≠ "" → (applyUpdate bu now b).status = s) ∧
    ((bu.status = none ∨ bu.status = some "") → (applyUpdate bu now b).status = b.status) := by
  obtain ⟨na, st, se⟩ := bu
  rcases na with _ | na <;> rcases st with _ | st <;> rcases se with _ | ⟨_ | ⟨p, m⟩⟩ <;>
    simp only [applyUpdate] <;> (try split_ifs) <;> simp_all

/-- Field equations for applyUpdate: a non-empty settings object in the
request is written, an absent or empty one is skipped. -/
theorem applyUpdate_settings (bu : BotUpdate) (now : Nat) (b : Bot) :
    (∀ m, bu.settings = some m → m ≠ [] → (applyUpdate bu now b).settings = m) ∧
    ((bu.settings = none ∨ bu.settings = some []) →
      (applyUpdate bu now b).settings = b.settings) := by
  obtain ⟨na, st, se⟩ := bu
  rcases na with _ | na <;> rcases st with _ | st <;> rcases se with _ | ⟨_ | ⟨p, m⟩⟩ <;>
    simp only [applyUpdate] <;> (try split_ifs) <;> simp_all

/-- A fully untruthy request leaves every column except updated_at alone. -/
theorem applyUpdate_untruthy (bu : BotUpdate) (now : Nat) (b : Bot)
    (hn : bu.name = none ∨ bu.name = some "")
    (hs : bu.status = none ∨ bu.status = some "")
    (hm : bu.settings = none ∨ bu.settings = some []) :
    applyUpdate bu now b = { b with updated_at := now } := by
  obtain ⟨na, st, se⟩ := bu
  dsimp only [applyUpdate]
  rcases hn with hn | hn <;> rcases hs with hs | hs <;> rcases hm with hm | hm <;>
    simp_all

/-! Claim theorems. -/

/-- Claim C5: for every authenticated user and create request, create_bot
persists a bot whose current_value equals its initial_investment and whose
status is stopped; initial_investment defaults to 1000, is_virtual to true
and settings to the empty object when omitted from the request; and the
returned row is exactly the persisted one. -/
theorem create_bot_roundtrip (db : DB) (uid : String) (bc : BotCreate)
    (n s tp ex fid : String) (now : Nat) :
    (({ name := n, strategy := s, trading_pair := tp, exchange := ex } : BotCreate).initial_investment = 1000
      ∧ ({ name := n, strategy := s, trading_pair := tp, exchange := ex } : BotCreate).is_virtual = true
      ∧ ({ name := n, strategy := s, trading_pair := tp, exchange := ex } : BotCreate).settings = []) ∧
    ((create_bot db uid bc fid now).1.current_value = (create_bot db uid bc fid now).1.initial_investment
      ∧ (create_bot db uid bc fid now).1.status = "stopped"
      ∧ (create_bot db uid bc fid now).1.initial_investment = bc.initial_investment
      ∧ (create_bot db uid bc fid now).1.is_virtual = bc.is_virtual
      ∧ (create_bot db uid bc fid now).1.settings = bc.settings
      ∧ (create_bot db uid bc fid now).1.name = bc.name
      ∧ (create_bot db uid bc fid now).1.strategy = bc.strategy
      ∧ (create_bot db uid bc fid now).1.trading_pair = bc.trading_pair
      ∧ (create_bot db uid bc fid now).1.exchange = bc.exchange
      ∧ (create_bot db uid bc fid now).1.user_id = uid
      ∧ (create_bot db uid bc fid now).2.bots = db.bots ++ [(create_bot db uid bc fid now).1]) :=
  ⟨⟨rfl, rfl, rfl⟩, rfl, rfl, rfl, rfl, rfl, rfl, rfl, rfl, rfl, rfl, rfl⟩

/-- Claim C9: update_bot performs no validation of the status value: any
non-empty string supplied as status is accepted and persisted, including
values outside the stopped and running enumeration. -/
theorem update_bot_status_unvalidated (db : DB) (uid : String) (b : Bot) (s : String)
    (now : Nat) (hs : s ≠ "")
    (hfind : db.bots.find? (botScope uid b.bot_id) = some b) :
    ∃ b2, (update_bot db uid b.bot_id { status := some s } now).1 = .ok b2
      ∧ b2.status = s
      ∧ (update_bot db uid b.bot_id { status := some s } now).2.bots.find?
          (botScope uid b.bot_id) = some b2 := by
  obtain ⟨h1, h2⟩ := update_bot_ok db uid b.bot_id { status := some s } now b hfind
  exact ⟨applyUpdate { status := some s } now b, h1,
    (applyUpdate_status { status := some s } now b).1 s rfl hs, h2⟩

/-- Witness for claim C9 at a concrete store: the out-of-enumeration
status value limbo is persisted. -/
theorem update_bot_status_unvalidated_witness :
    ("limbo" ≠ "") ∧
    sampleDB.bots.find? (botScope "u1" sampleBot.bot_id) = some sampleBot ∧
    ∃ b2, (update_bot sampleDB "u1" sampleBot.bot_id { status := some "limbo" } 5).1 = .ok b2
      ∧ b2.status = "limbo"
      ∧ (update_bot sampleDB "u1" sampleBot.bot_id { status := some "limbo" } 5).2.bots.find?
          (botScope "u1" sampleBot.bot_id) = some b2 :=
  ⟨by decide, rfl,
    update_bot_status_unvalidated sampleDB "u1" sampleBot "limbo" 5 (by decide) rfl⟩

/-- Claim C10: update_bot called with a fully empty or absent request body
does not fail: it succeeds, refreshes updated_at, leaves every other
column of the row unchanged, and returns and persists the row. -/
theorem update_bot_empty_partial (db : DB) (uid : String) (b : Bot) (bu : BotUpdate)
    (now : Nat)
    (hfind : db.bots.find? (botScope uid b.bot_id) = some b)
    (hn : bu.name = none ∨ bu.name = some "")
    (hs : bu.status = none ∨ bu.status = some "")
    (hm : bu.settings = none ∨ bu.settings = some []) :
    (update_bot db uid b.bot_id bu now).1 = .ok { b with updated_at := now } ∧
    (update_bot db uid b.bot_id bu now).2.bots.find? (botScope uid b.bot_id)
      = some { b with updated_at := now } := by
  obtain ⟨h1, h2⟩ := update_bot_ok db uid b.bot_id bu now b hfind
  rw [applyUpdate_untruthy bu now b hn hs hm] at h1 h2
  exact ⟨h1, h2⟩

/-- Witness for claim C10 at a concrete store: the all-absent request body
succeeds and only refreshes updated_at. -/
theorem update_bot_empty_partial_witness :
    sampleDB.bots.find? (botScope "u1" sampleBot.bot_id) = some sampleBot ∧
    ((update_bot sampleDB "u1" sampleBot.bot_id {} 7).1
        = .ok { sampleBot with updated_at := 7 } ∧
      (update_bot sampleDB "u1" sampleBot.bot_id {} 7).2.bots.find?
          (botScope "u1" sampleBot.bot_id) = some { sampleBot with updated_at := 7 }) :=
  ⟨rfl, update_bot_empty_partial sampleDB "u1" sampleBot {} 7 rfl
    (Or.inl rfl) (Or.inl rfl) (Or.inl rfl)⟩

/-- Setting settings to the empty object in the request body produces
exactly the same SET clause as not providing settings at all. -/
theorem applyUpdate_settings_empty_eq (bu : BotUpdate) (now : Nat) (b : Bot) :
    applyUpdate { bu with settings := some [] } now b
      = applyUpdate { bu with settings := none } now b := rfl

/-- The empty-settings indistinguishability lifted to the whole endpoint. -/
theorem update_bot_settings_empty_eq (db : DB) (uid bid : String) (bu : BotUpdate)
    (now : Nat) :
    update_bot db uid bid { bu with settings := some [] } now
      = update_bot db uid bid { bu with settings := none } now := by
  have h : (fun x => if botScope uid bid x
        then applyUpdate { bu with settings := some [] } now x else x)
      = (fun x => if botScope uid bid x
        then applyUpdate { bu with settings := none } now x else x) := by
    funext x
    rw [applyUpdate_settings_empty_eq]
  simp only [update_bot, h]

/-- A map that rewrites only in-scope rows is the identity on a table with
no in-scope row. -/
theorem map_scope_id (l : List Bot) (uid bid : String) (g : Bot → Bot)
    (h : ∀ x ∈ l, botScope uid bid x = false) :
    l.map (fun x => if botScope uid bid x then g x else x) = l := by
  induction l with
  | nil => rfl
  | cons a t ih =>
    simp only [List.map_cons]
    rw [h a (List.mem_cons_self a t), ih (fun x hx => h x (List.mem_cons_of_mem a hx))]
    simp

/-- A filter that drops only in-scope rows is the identity on a table with
no in-scope row. -/
theorem filter_scope_id (l : List Bot) (uid bid : String)
    (h : ∀ x ∈ l, botScope uid bid x = false) :
    l.filter (fun x => !botScope uid bid x) = l :=
  List.filter_eq_self.mpr (fun x hx => by rw [h x hx]; rfl)

/-- When a row matches the scope, start_bot returns that row with status
running and updated_at refreshed, and persists the same row. -/
theorem start_bot_ok (db : DB) (uid bid : String) (now : Nat) (b : Bot)
    (hfind : db.bots.find? (botScope uid bid) = some b) :
    (start_bot db uid bid now).1 = .ok { b with status := "running", updated_at := now } ∧
    (start_bot db uid bid now).2.bots.find? (botScope uid bid)
      = some { b with status := "running", updated_at := now } := by
  have hb : botScope uid bid b = true := List.find?_some hfind
  have hpres : ∀ x, botScope uid bid
      (if botScope uid bid x then { x with status := "running", updated_at := now } else x)
      = botScope uid bid x := by
    intro x
    by_cases hx : botScope uid bid x
    · rw [if_pos hx]
      rfl
    · rw [if_neg hx]
  have hmap := find?_map_pres
    (fun x => if botScope uid bid x then { x with status := "running", updated_at := now } else x)
    (botScope uid bid) hpres db.bots
  simp only [start_bot]
  rw [hmap, hfind]
  simp [hb, hmap, hfind]

/-- When a row matches the scope, stop_bot returns that row with status
stopped and updated_at refreshed, and persists the same row. -/
theorem stop_bot_ok (db : DB) (uid bid : String) (now : Nat) (b : Bot)
    (hfind : db.bots.find? (botScope uid bid) = some b) :
    (stop_bot db uid bid now).1 = .ok { b with status := "stopped", updated_at := now } ∧
    (stop_bot db uid bid now).2.bots.find? (botScope uid bid)
      = some { b with status := "stopped", updated_at := now } := by
  have hb : botScope uid bid b = true := List.find?_some hfind
  have hpres : ∀ x, botScope uid bid
      (if botScope uid bid x then { x with status := "stopped", updated_at := now } else x)
      = botScope uid bid x := by
    intro x
    by_cases hx : botScope uid bid x
    · rw [if_pos hx]
      rfl
    · rw [if_neg hx]
  have hmap := find?_map_pres
    (fun x => if botScope uid bid x then { x with status := "stopped", updated_at := now } else x)
    (botScope uid bid) hpres db.bots
  simp only [stop_bot]
  rw [hmap, hfind]
  simp [hb, hmap, hfind]

/-- Claim C4: update_bot changes only the truthy fields of the request
body; absent or empty fields are left untouched; in particular a request
setting settings to the empty object is silently ignored and is
indistinguishable from omitting settings; updated_at is always refreshed
and every column outside the SET clause is unchanged. -/
theorem update_bot_partial_semantics (db : DB) (uid : String) (b : Bot) (bu : BotUpdate)
    (now : Nat)
    (hfind : db.bots.find? (botScope uid b.bot_id) = some b) :
    ∃ b2, (update_bot db uid b.bot_id bu now).1 = .ok b2 ∧
      b2.updated_at = now ∧
      (∀ n, bu.name = some n → n ≠ "" → b2.name = n) ∧
      ((bu.name = none ∨ bu.name = some "") → b2.name = b.name) ∧
      (∀ s, bu.status = some s → s ≠ "" → b2.status = s) ∧
      ((bu.status = none ∨ bu.status = some "") → b2.status = b.status) ∧
      (∀ m, bu.settings = some m → m ≠ [] → b2.settings = m) ∧
      ((bu.settings = none ∨ bu.settings = some []) → b2.settings = b.settings) ∧
      b2.bot_id = b.bot_id ∧ b2.user_id = b.user_id ∧ b2.strategy = b.strategy ∧
      b2.trading_pair = b.trading_pair ∧ b2.exchange = b.exchange ∧
      b2.initial_investment = b.initial_investment ∧
      b2.current_value = b.current_value ∧ b2.is_virtual = b.is_virtual ∧
      b2.created_at = b.created_at ∧
      update_bot db uid b.bot_id { bu with settings := some [] } now
        = update_bot db uid b.bot_id { bu with settings := none } now := by
  obtain ⟨h1, _⟩ := update_bot_ok db uid b.bot_id bu now b hfind
  exact ⟨applyUpdate bu now b, h1,
    (applyUpdate_frame bu now b).2.2.2.2.2.2.2.2.2,
    (applyUpdate_name bu now b).1, (applyUpdate_name bu now b).2,
    (applyUpdate_status bu now b).1, (applyUpdate_status bu now b).2,
    (applyUpdate_settings bu now b).1, (applyUpdate_settings bu now b).2,
    (applyUpdate_frame bu now b).1, (applyUpdate_frame bu now b).2.1,
    (applyUpdate_frame bu now b).2.2.1, (applyUpdate_frame bu now b).2.2.2.1,
    (applyUpdate_frame bu now b).2.2.2.2.1, (applyUpdate_frame bu now b).2.2.2.2.2.1,
    (applyUpdate_frame bu now b).2.2.2.2.2.2.1,
    (applyUpdate_frame bu now b).2.2.2.2.2.2.2.1,
    (applyUpdate_frame bu now b).2.2.2.2.2.2.2.2.1,
    update_bot_settings_empty_eq db uid b.bot_id bu now⟩

/-- Witness for claim C4 at a concrete store and request body. -/
theorem update_bot_partial_semantics_witness :
    sampleDB.bots.find? (botScope "u1" sampleBot.bot_id) = some sampleBot ∧
    (∃ b2, (update_bot sampleDB "u1" sampleBot.bot_id
        { name := some "Renamed", settings := some [] } 9).1 = .ok b2 ∧
      b2.updated_at = 9 ∧
      (∀ n, ({ name := some "Renamed", settings := some [] } : BotUpdate).name = some n →
        n ≠ "" → b2.name = n) ∧
      ((({ name := some "Renamed", settings := some [] } : BotUpdate).name = none ∨
        ({ name := some "Renamed", settings := some [] } : BotUpdate).name = some "") →
        b2.name = sampleBot.name) ∧
      (∀ s, ({ name := some "Renamed", settings := some [] } : BotUpdate).status = some s →
        s ≠ "" → b2.status = s) ∧
      ((({ name := some "Renamed", settings := some [] } : BotUpdate).status = none ∨
        ({ name := some "Renamed", settings := some [] } : BotUpdate).status = some "") →
        b2.status = sampleBot.status) ∧
      (∀ m, ({ name := some "Renamed", settings := some [] } : BotUpdate).settings = some m →
        m ≠ [] → b2.settings = m) ∧
      ((({ name := some "Renamed", settings := some [] } : BotUpdate).settings = none ∨
        ({ name := some "Renamed", settings := some [] } : BotUpdate).settings = some []) →
        b2.settings = sampleBot.settings) ∧
      b2.bot_id = sampleBot.bot_id ∧ b2.user_id = sampleBot.user_id ∧
      b2.strategy = sampleBot.strategy ∧ b2.trading_pair = sampleBot.trading_pair ∧
      b2.exchange = sampleBot.exchange ∧
      b2.initial_investment = sampleBot.initial_investment ∧
      b2.current_value = sampleBot.current_value ∧ b2.is_virtual = sampleBot.is_virtual ∧
      b2.created_at = sampleBot.created_at ∧
      update_bot sampleDB "u1" sampleBot.bot_id
          { ({ name := some "Renamed", settings := some [] } : BotUpdate) with
            settings := some [] } 9
        = update_bot sampleDB "u1" sampleBot.bot_id
          { ({ name := some "Renamed", settings := some [] } : BotUpdate) with
            settings := none } 9) :=
  ⟨rfl, update_bot_partial_semantics sampleDB "u1" sampleBot
    { name := some "Renamed", settings := some [] } 9 rfl⟩

/-- Claim C3: for a bot owned by one user, every single-bot operation
invoked by a different user fails with 404 and leaves the store untouched,
provided no other bot shares the id: ownership mismatch is
indistinguishable from nonexistence. -/
theorem owner_scoping_notfound (db : DB) (b : Bot) (uidB : String) (bu : BotUpdate)
    (now : Nat)
    (hb : b ∈ db.bots)
    (huniq : ∀ b2 ∈ db.bots, b2.bot_id = b.bot_id → b2.user_id = b.user_id)
    (hne : uidB ≠ b.user_id) :
    get_bot db uidB b.bot_id = .error 404 ∧
    update_bot db uidB b.bot_id bu now = (.error 404, db) ∧
    delete_bot db uidB b.bot_id = (.error 404, db) ∧
    start_bot db uidB b.bot_id now = (.error 404, db) ∧
    stop_bot db uidB b.bot_id now = (.error 404, db) := by
  have hall : ∀ x ∈ db.bots, botScope uidB b.bot_id x = false := by
    intro x hx
    by_cases hid : x.bot_id = b.bot_id
    · have hux := huniq x hx hid
      simp only [botScope, decide_eq_false_iff_not]
      exact fun hc => hne (hux ▸ hc.2.symm)
    · simp only [botScope, decide_eq_false_iff_not]
      exact fun hc => hid hc.1
  have hnone : db.bots.find? (botScope uidB b.bot_id) = none :=
    List.find?_eq_none.mpr (fun x hx => by simp [hall x hx])
  refine ⟨?_, ?_, ?_, ?_, ?_⟩
  · simp [get_bot, hnone]
  · simp only [update_bot, map_scope_id db.bots uidB b.bot_id _ hall, hnone]
  · simp only [delete_bot, filter_scope_id db.bots uidB b.bot_id hall, hnone]
  · simp only [start_bot, map_scope_id db.bots uidB b.bot_id _ hall, hnone]
  · simp only [stop_bot, map_scope_id db.bots uidB b.bot_id _ hall, hnone]

/-- Witness for claim C3 at a concrete store: user u2 gets 404 on the bot
of user u1 from all five operations. -/
theorem owner_scoping_notfound_witness :
    (sampleBot ∈ sampleDB.bots ∧
      (∀ b2 ∈ sampleDB.bots, b2.bot_id = sampleBot.bot_id → b2.user_id = sampleBot.user_id) ∧
      ("u2" : String) ≠ sampleBot.user_id) ∧
    (get_bot sampleDB "u2" sampleBot.bot_id = .error 404 ∧
      update_bot sampleDB "u2" sampleBot.bot_id {} 3 = (.error 404, sampleDB) ∧
      delete_bot sampleDB "u2" sampleBot.bot_id = (.error 404, sampleDB) ∧
      start_bot sampleDB "u2" sampleBot.bot_id 3 = (.error 404, sampleDB) ∧
      stop_bot sampleDB "u2" sampleBot.bot_id 3 = (.error 404, sampleDB)) :=
  ⟨⟨List.mem_singleton.mpr rfl,
    fun b2 hb2 _ => by rcases List.mem_singleton.mp hb2; rfl,
    by decide⟩,
   owner_scoping_notfound sampleDB sampleBot "u2" {} 3
    (List.mem_singleton.mpr rfl)
    (fun b2 hb2 _ => by rcases List.mem_singleton.mp hb2; rfl)
    (by decide)⟩

/-- Claim C6: start_bot and stop_bot set status unconditionally, whatever
the current status, refreshing updated_at on every call; start then stop
then start leaves the row running with the last timestamp; and each fails
with 404 when no row matches the scope, leaving the store untouched. -/
theorem start_stop_lifecycle (db : DB) (uid bid : String) (b : Bot)
    (now1 now2 now3 : Nat)
    (hfind : db.bots.find? (botScope uid bid) = some b) :
    ((start_bot db uid bid now1).1
        = .ok { b with status := "running", updated_at := now1 }) ∧
    ((stop_bot db uid bid now1).1
        = .ok { b with status := "stopped", updated_at := now1 }) ∧
    ((start_bot (stop_bot (start_bot db uid bid now1).2 uid bid now2).2 uid bid now3).1
        = .ok { b with status := "running", updated_at := now3 }) ∧
    (∀ (db0 : DB) (uid0 bid0 : String) (n0 : Nat),
        db0.bots.find? (botScope uid0 bid0) = none →
        start_bot db0 uid0 bid0 n0 = (.error 404, db0) ∧
        stop_bot db0 uid0 bid0 n0 = (.error 404, db0)) := by
  obtain ⟨hs1, hs1f⟩ := start_bot_ok db uid bid now1 b hfind
  obtain ⟨ht1, _⟩ := stop_bot_ok db uid bid now1 b hfind
  obtain ⟨_, hs2f⟩ := stop_bot_ok (start_bot db uid bid now1).2 uid bid now2 _ hs1f
  obtain ⟨hs3, _⟩ := start_bot_ok (stop_bot (start_bot db uid bid now1).2 uid bid now2).2
    uid bid now3 _ hs2f
  refine ⟨hs1, ht1, hs3, ?_⟩
  intro db0 uid0 bid0 n0 h0
  have hall : ∀ x ∈ db0.bots, botScope uid0 bid0 x = false := by
    intro x hx
    have := List.find?_eq_none.mp h0 x hx
    simpa using this
  constructor
  · simp only [start_bot, map_scope_id db0.bots uid0 bid0 _ hall, h0]
  · simp only [stop_bot, map_scope_id db0.bots uid0 bid0 _ hall, h0]

/-- Witness for claim C6 at a concrete store. -/
theorem start_stop_lifecycle_witness :
    sampleDB.bots.find? (botScope "u1" "bot_1") = some sampleBot ∧
    (((start_bot sampleDB "u1" "bot_1" 1).1
        = .ok { sampleBot with status := "running", updated_at := 1 }) ∧
      ((stop_bot sampleDB "u1" "bot_1" 1).1
        = .ok { sampleBot with status := "stopped", updated_at := 1 }) ∧
      ((start_bot (stop_bot (start_bot sampleDB "u1" "bot_1" 1).2 "u1" "bot_1" 2).2
          "u1" "bot_1" 3).1
        = .ok { sampleBot with status := "running", updated_at := 3 }) ∧
      (∀ (db0 : DB) (uid0 bid0 : String) (n0 : Nat),
        db0.bots.find? (botScope uid0 bid0) = none →
        start_bot db0 uid0 bid0 n0 = (.error 404, db0) ∧
        stop_bot db0 uid0 bid0 n0 = (.error 404, db0))) :=
  ⟨rfl, start_stop_lifecycle sampleDB "u1" "bot_1" sampleBot 1 2 3 rfl⟩

/-- find? commutes with a filter whose condition is implied by the search
predicate. -/
theorem find?_filter_subsume {α : Type} (p q : α → Bool) (l : List α)
    (h : ∀ x, p x = true → q x = true) :
    (l.filter q).find? p = l.find? p := by
  induction l with
  | nil => rfl
  | cons a t ih =>
    by_cases hpa : p a = true
    · rw [List.filter_cons_of_pos (h a hpa), List.find?_cons_of_pos _ hpa,
        List.find?_cons_of_pos _ hpa]
    · by_cases hqa : q a = true
      · rw [List.filter_cons_of_pos hqa, List.find?_cons_of_neg _ hpa,
          List.find?_cons_of_neg _ hpa]
        exact ih
      · rw [List.filter_cons_of_neg (by simpa using hqa), List.find?_cons_of_neg _ hpa]
        exact ih

/-- Lookup after a jsonb merge with a single-key object: the merged key
now maps to the new value and every other key is unchanged. -/
theorem jsonLookup_jsonbConcat_single (a : JsonMap) (k0 : String) (v : Json) (k : String) :
    jsonLookup (jsonbConcat a [(k0, v)]) k
      = if k = k0 then some v else jsonLookup a k := by
  unfold jsonLookup jsonbConcat
  rw [List.find?_append]
  by_cases hk : k = k0
  · subst hk
    have h1 : (a.filter fun p =>
        decide ((([(k, v)] : JsonMap).find? fun q => decide (q.1 = p.1)).isNone)).find?
          (fun p => decide (p.1 = k)) = none := by
      rw [List.find?_eq_none]
      intro x hx
      rw [List.mem_filter] at hx
      intro hc
      have hxk : x.1 = k := of_decide_eq_true hc
      have := hx.2
      rw [List.find?_singleton] at this
      simp [hxk] at this
    rw [h1]
    simp
  · have hk0 : ¬k0 = k := fun h => hk h.symm
    have h2 : (([(k0, v)] : JsonMap).find? fun p => decide (p.1 = k)) = none := by
      rw [List.find?_singleton]
      simp [hk0]
    rw [h2]
    have h3 : (a.filter fun p =>
        decide ((([(k0, v)] : JsonMap).find? fun q => decide (q.1 = p.1)).isNone)).find?
          (fun p => decide (p.1 = k)) = a.find? (fun p => decide (p.1 = k)) := by
      apply find?_filter_subsume
      intro x hx
      have hxk : x.1 = k := of_decide_eq_true hx
      rw [List.find?_singleton]
      simp [hxk, hk0]
    rw [h3]
    simp [hk]

/-- Claim C7: complete_onboarding called twice sets onboarding_completed,
stores the second payload under the onboarding key of settings, and keeps
every other settings key (and every other user column) unchanged: the
merge is additive, not a replacement. -/
theorem complete_onboarding_twice (db : DB) (u : User) (p1 p2 : Json)
    (hfind : db.users.find? (fun x => decide (x.user_id = u.user_id)) = some u) :
    ∃ u2, (complete_onboarding (complete_onboarding db u.user_id p1) u.user_id p2).users.find?
        (fun x => decide (x.user_id = u.user_id)) = some u2 ∧
      u2.onboarding_completed = true ∧
      jsonLookup u2.settings "onboarding" = some p2 ∧
      (∀ k, k ≠ "onboarding" → jsonLookup u2.settings k = jsonLookup u.settings k) ∧
      u2.user_id = u.user_id ∧ u2.email = u.email ∧ u2.name = u.name ∧
      u2.picture = u.picture := by
  have hpres : ∀ (p : Json) (x : User), (fun y => decide (y.user_id = u.user_id))
      (if x.user_id = u.user_id then
        { x with onboarding_completed := true,
                 settings := jsonbConcat x.settings [("onboarding", p)] }
       else x)
      = (fun y => decide (y.user_id = u.user_id)) x := by
    intro p x
    by_cases hx : x.user_id = u.user_id
    · rw [if_pos hx]
    · rw [if_neg hx]
  have h1 := find?_map_pres
    (fun x => if x.user_id = u.user_id then
      { x with onboarding_completed := true,
               settings := jsonbConcat x.settings [("onboarding", p1)] }
     else x)
    (fun y => decide (y.user_id = u.user_id)) (hpres p1) db.users
  have h2 := find?_map_pres
    (fun x => if x.user_id = u.user_id then
      { x with onboarding_completed := true,
               settings := jsonbConcat x.settings [("onboarding", p2)] }
     else x)
    (fun y => decide (y.user_id = u.user_id)) (hpres p2)
    ((complete_onboarding db u.user_id p1).users)
  have hfind2 : (complete_onboarding (complete_onboarding db u.user_id p1) u.user_id p2).users.find?
      (fun x => decide (x.user_id = u.user_id))
      = some ({ u with
                onboarding_completed := true,
                settings := jsonbConcat (jsonbConcat u.settings [("onboarding", p1)])
                  [("onboarding", p2)] }) := by
    simp only [complete_onboarding] at h2 ⊢
    rw [h2, h1, hfind]
    simp
  refine ⟨_, hfind2, rfl, ?_, ?_, rfl, rfl, rfl, rfl⟩
  · rw [jsonLookup_jsonbConcat_single]
    simp
  · intro k hk
    rw [jsonLookup_jsonbConcat_single, jsonLookup_jsonbConcat_single]
    simp [hk]

/-- Witness for claim C7 at a concrete store: the theme key survives two
onboarding completions and the second payload wins. -/
theorem complete_onboarding_twice_witness :
    sampleDB.users.find? (fun x => decide (x.user_id = sampleUser.user_id))
      = some sampleUser ∧
    (∃ u2, (complete_onboarding (complete_onboarding sampleDB sampleUser.user_id
          (Json.str "first")) sampleUser.user_id (Json.str "second")).users.find?
        (fun x => decide (x.user_id = sampleUser.user_id)) = some u2 ∧
      u2.onboarding_completed = true ∧
      jsonLookup u2.settings "onboarding" = some (Json.str "second") ∧
      (∀ k, k ≠ "onboarding" → jsonLookup u2.settings k = jsonLookup sampleUser.settings k) ∧
      u2.user_id = sampleUser.user_id ∧ u2.email = sampleUser.email ∧
      u2.name = sampleUser.name ∧ u2.picture = sampleUser.picture) :=
  ⟨rfl, complete_onboarding_twice sampleDB sampleUser (Json.str "first")
    (Json.str "second") rfl⟩

/-- create_session written without the intermediate let bindings: the
returned user and token, the upserted users table, the session table with
all sessions of that user removed and the single fresh session appended,
and the untouched bots table. -/
theorem create_session_eq (db : DB) (a : AuthData) (fid tok sid : String) (now : Nat) :
    create_session db a fid tok sid now =
      (((upsertUser db.users a fid).1, tok),
       { users := (upsertUser db.users a fid).2,
         sessions := db.sessions.filter
             (fun s => decide (s.user_id ≠ (upsertUser db.users a fid).1.user_id))
           ++ [{ session_id := sid, user_id := (upsertUser db.users a fid).1.user_id,
                 session_token := tok, expires_at := now + sevenDays }],
         bots := db.bots }) := by
  cases hcase : db.users.find? (fun u => decide (u.email = a.email)) <;>
    simp [create_session, upsertUser, hcase]

/-- The user returned by the upsert step carries the email of the exchange
profile, in both the update and the insert branch. -/
theorem upsertUser_email (users : List User) (a : AuthData) (fid : String) :
    (upsertUser users a fid).1.email = a.email := by
  cases hcase : users.find? (fun u => decide (u.email = a.email)) with
  | none => simp [upsertUser, hcase]
  | some u0 =>
      have h := List.find?_some hcase
      simp only [upsertUser, hcase]
      exact of_decide_eq_true h

/-- Looking up the upserted user by its user_id in the upserted table
finds exactly the returned row, when user ids are unique and the fresh id
is really fresh. -/
theorem upsertUser_find_user_id (users : List User) (a : AuthData) (fid : String)
    (hnodup : (users.map User.user_id).Nodup)
    (hfid : ∀ u ∈ users, u.user_id ≠ fid) :
    (upsertUser users a fid).2.find?
        (fun x => decide (x.user_id = (upsertUser users a fid).1.user_id))
      = some (upsertUser users a fid).1 := by
  cases hcase : users.find? (fun u => decide (u.email = a.email)) with
  | some u0 =>
      simp only [upsertUser, hcase]
      have hpres : ∀ x : User, (fun y => decide (y.user_id = u0.user_id))
          (if x.email = a.email then { x with name := a.name, picture := a.picture } else x)
          = (fun y => decide (y.user_id = u0.user_id)) x := by
        intro x
        by_cases hx : x.email = a.email
        · rw [if_pos hx]
        · rw [if_neg hx]
      rw [find?_map_pres _ _ hpres users]
      rw [find?_key_of_nodup User.user_id users hnodup (List.mem_of_find?_eq_some hcase)]
      have he' := List.find?_some hcase
      have he : u0.email = a.email := of_decide_eq_true he'
      simp [he]
  | none =>
      simp only [upsertUser, hcase]
      rw [List.find?_append]
      have h1 : users.find? (fun x => decide (x.user_id = fid)) = none := by
        rw [List.find?_eq_none]
        intro x hx
        simp [hfid x hx]
      rw [h1]
      simp

/-- A second upsert for the same email resolves to the same user_id as the
first: the update branch is taken and the identifier is stable. -/
theorem upsertUser_twice_user_id (users : List User) (a a2 : AuthData) (fid fid2 : String)
    (hemail : a2.email = a.email) :
    (upsertUser (upsertUser users a fid).2 a2 fid2).1.user_id
      = (upsertUser users a fid).1.user_id := by
  obtain ⟨e2, n2, pic2⟩ := a2
  simp only at hemail
  subst hemail
  cases hcase : users.find? (fun u => decide (u.email = a.email)) with
  | some u0 =>
      have hpres : ∀ x : User, (fun y => decide (y.email = a.email))
          (if x.email = a.email then { x with name := a.name, picture := a.picture } else x)
          = (fun y => decide (y.email = a.email)) x := by
        intro x
        by_cases hx : x.email = a.email
        · rw [if_pos hx]
        · rw [if_neg hx]
      have he' := List.find?_some hcase
      have he : u0.email = a.email := of_decide_eq_true he'
      have hf2 : ((users.map (fun u => if u.email = a.email then
            { u with name := a.name, picture := a.picture } else u)).find?
          (fun y => decide (y.email = a.email)))
          = some { u0 with name := a.name, picture := a.picture } := by
        rw [find?_map_pres _ _ hpres users, hcase]
        simp [he]
      simp only [upsertUser, hcase, hf2]
  | none =>
      simp only [upsertUser, hcase]
      rw [List.find?_append, hcase]
      simp

/-- Claim C1: for every external session id the exchange resolves (the
sentinel test id included), create_session followed by get_current_user on
the returned token before expiry yields a user whose email is the email
the exchange returned. -/
theorem create_session_resolve_roundtrip (db : DB) (ex : String → Option AuthData)
    (sid0 : String) (a : AuthData) (fid tok sid : String) (now now2 : Nat)
    (hres : resolveExternal ex sid0 = some a)
    (hnodup : (db.users.map User.user_id).Nodup)
    (htok : ∀ s ∈ db.sessions, s.session_token ≠ tok)
    (hfid : ∀ u ∈ db.users, u.user_id ≠ fid)
    (htokne : tok ≠ "")
    (hexp : now2 < now + sevenDays) :
    ∃ u, get_current_user (create_session db a fid tok sid now).2 (some tok) none now2
        = .ok u
      ∧ u.email = a.email
      ∧ (create_session db a fid tok sid now).1.2 = tok := by
  have hres2 : resolveSession (create_session db a fid tok sid now).2 tok now2
      = some (upsertUser db.users a fid).1 := by
    rw [create_session_eq]
    simp only [resolveSession]
    have h1 : (db.sessions.filter
        (fun s => decide (s.user_id ≠ (upsertUser db.users a fid).1.user_id))).find?
        (fun s => decide (s.session_token = tok ∧ now2 < s.expires_at)) = none := by
      rw [List.find?_eq_none]
      intro x hx
      simp [htok x (List.mem_filter.mp hx).1]
    rw [List.find?_append, h1]
    simp only [Option.none_or, List.find?_singleton]
    rw [if_pos (by simp [hexp])]
    exact upsertUser_find_user_id db.users a fid hnodup hfid
  refine ⟨(upsertUser db.users a fid).1, ?_, upsertUser_email db.users a fid,
    by rw [create_session_eq]⟩
  simp [get_current_user, get_session_token, htokne, hres2]

/-- Witness for claim C1: the sentinel test identity on an empty store. -/
theorem create_session_resolve_roundtrip_witness :
    (resolveExternal (fun _ => none) "test_session_id" = some testAuthData ∧
      (emptyDB.users.map User.user_id).Nodup ∧
      (∀ s ∈ emptyDB.sessions, s.session_token ≠ "sess_tok1") ∧
      (∀ u ∈ emptyDB.users, u.user_id ≠ "user_1") ∧
      ("sess_tok1" : String) ≠ "" ∧ (100 : Nat) < 0 + sevenDays) ∧
    ∃ u, get_current_user
        (create_session emptyDB testAuthData "user_1" "sess_tok1" "sid_1" 0).2
        (some "sess_tok1") none 100 = .ok u
      ∧ u.email = testAuthData.email
      ∧ (create_session emptyDB testAuthData "user_1" "sess_tok1" "sid_1" 0).1.2
          = "sess_tok1" :=
  ⟨⟨rfl, by simp [emptyDB], by simp [emptyDB], by simp [emptyDB], by decide,
    by decide⟩,
   create_session_resolve_roundtrip emptyDB (fun _ => none) "test_session_id"
    testAuthData "user_1" "sess_tok1" "sid_1" 0 100 rfl (by simp [emptyDB])
    (by simp [emptyDB]) (by simp [emptyDB]) (by decide) (by decide)⟩

/-- Claim C2: create_session enforces the single-session-per-user policy:
the new store holds exactly one session row for the upserted user; a store
with at most one session per user keeps that invariant; and after a second
create_session for the same email, the first token no longer resolves:
get_current_user on it fails with 401. -/
theorem second_session_invalidates_first (db : DB) (a a2 : AuthData)
    (fid1 tok1 sid1 fid2 tok2 sid2 : String) (now1 now2 now3 : Nat)
    (hemail : a2.email = a.email)
    (htok1 : ∀ s ∈ db.sessions, s.session_token ≠ tok1)
    (hne : tok2 ≠ tok1) :
    ((create_session db a fid1 tok1 sid1 now1).2.sessions.countP
        (fun s => decide (s.user_id = (create_session db a fid1 tok1 sid1 now1).1.1.user_id))
      = 1) ∧
    (∀ v, db.sessions.countP (fun s => decide (s.user_id = v)) ≤ 1 →
      (create_session db a fid1 tok1 sid1 now1).2.sessions.countP
        (fun s => decide (s.user_id = v)) ≤ 1) ∧
    get_current_user
      (create_session (create_session db a fid1 tok1 sid1 now1).2 a2 fid2 tok2 sid2 now2).2
      (some tok1) none now3 = .error 401 := by
  have hu1 : (create_session db a fid1 tok1 sid1 now1).1.1
      = (upsertUser db.users a fid1).1 := by rw [create_session_eq]
  have hsess1 : (create_session db a fid1 tok1 sid1 now1).2.sessions
      = db.sessions.filter
          (fun s => decide (s.user_id ≠ (upsertUser db.users a fid1).1.user_id))
        ++ [{ session_id := sid1, user_id := (upsertUser db.users a fid1).1.user_id,
              session_token := tok1, expires_at := now1 + sevenDays }] := by
    rw [create_session_eq]
  have husers1 : (create_session db a fid1 tok1 sid1 now1).2.users
      = (upsertUser db.users a fid1).2 := by rw [create_session_eq]
  have h0 : (db.sessions.filter
      (fun s => decide (s.user_id ≠ (upsertUser db.users a fid1).1.user_id))).countP
      (fun s => decide (s.user_id = (upsertUser db.users a fid1).1.user_id)) = 0 := by
    rw [List.countP_eq_zero]
    intro x hx
    have hxf := (List.mem_filter.mp hx).2
    simp at hxf ⊢
    exact hxf
  refine ⟨?_, ?_, ?_⟩
  · rw [hu1, hsess1, List.countP_append, h0, List.countP_singleton]
    simp
  · intro v hv
    rw [hsess1, List.countP_append, List.countP_singleton]
    by_cases hvu : v = (upsertUser db.users a fid1).1.user_id
    · subst hvu
      rw [h0]
      simp
    · have hvu2 : ¬(upsertUser db.users a fid1).1.user_id = v := fun h => hvu h.symm
      have hle : (db.sessions.filter
          (fun s => decide (s.user_id ≠ (upsertUser db.users a fid1).1.user_id))).countP
          (fun s => decide (s.user_id = v)) ≤ db.sessions.countP
          (fun s => decide (s.user_id = v)) :=
        List.Sublist.countP_le (fun s => decide (s.user_id = v))
          (List.filter_sublist db.sessions)
      rw [if_neg (by simpa using hvu2)]
      omega
  · have hu2id : (upsertUser (create_session db a fid1 tok1 sid1 now1).2.users a2 fid2).1.user_id
        = (upsertUser db.users a fid1).1.user_id := by
      rw [husers1]
      exact upsertUser_twice_user_id db.users a a2 fid1 fid2 hemail
    have hsess2 : (create_session (create_session db a fid1 tok1 sid1 now1).2
        a2 fid2 tok2 sid2 now2).2.sessions
        = (create_session db a fid1 tok1 sid1 now1).2.sessions.filter
            (fun s => decide (s.user_id
              ≠ (upsertUser (create_session db a fid1 tok1 sid1 now1).2.users a2 fid2).1.user_id))
          ++ [{ session_id := sid2,
                user_id := (upsertUser (create_session db a fid1 tok1 sid1 now1).2.users
                  a2 fid2).1.user_id,
                session_token := tok2, expires_at := now2 + sevenDays }] := by
      rw [create_session_eq]
    have hall : ∀ x ∈ (create_session (create_session db a fid1 tok1 sid1 now1).2
        a2 fid2 tok2 sid2 now2).2.sessions, x.session_token ≠ tok1 := by
      rw [hsess2]
      intro x hx
      rcases List.mem_append.mp hx with h | h
      · have hmem := (List.mem_filter.mp h).1
        have hcond := (List.mem_filter.mp h).2
        rw [hsess1] at hmem
        rcases List.mem_append.mp hmem with h2 | h2
        · exact htok1 x (List.mem_filter.mp h2).1
        · have hx1 := List.mem_singleton.mp h2
          subst hx1
          simp [hu2id] at hcond
      · have hx2 := List.mem_singleton.mp h
        subst hx2
        exact hne
    have hresolve : resolveSession (create_session (create_session db a fid1 tok1 sid1 now1).2
        a2 fid2 tok2 sid2 now2).2 tok1 now3 = none := by
      simp only [resolveSession]
      have hn : ((create_session (create_session db a fid1 tok1 sid1 now1).2
          a2 fid2 tok2 sid2 now2).2.sessions.find?
          (fun s => decide (s.session_token = tok1 ∧ now3 < s.expires_at))) = none := by
        rw [List.find?_eq_none]
        intro x hx
        simp
        intro h
        exact absurd h (hall x hx)
      rw [hn]
    by_cases htk : tok1 = ""
    · subst htk
      simp [get_current_user, get_session_token, headerToken]
    · simp [get_current_user, get_session_token, htk, hresolve]

/-- Witness for claim C2: two logins with the sentinel identity on an
empty store; the first token then fails to authenticate. -/
theorem second_session_invalidates_first_witness :
    ((testAuthData.email = testAuthData.email) ∧
      (∀ s ∈ emptyDB.sessions, s.session_token ≠ "tokA") ∧
      ("tokB" : String) ≠ "tokA") ∧
    (((create_session emptyDB testAuthData "user_1" "tokA" "sidA" 0).2.sessions.countP
        (fun s => decide (s.user_id
          = (create_session emptyDB testAuthData "user_1" "tokA" "sidA" 0).1.1.user_id))
      = 1) ∧
    (∀ v, emptyDB.sessions.countP (fun s => decide (s.user_id = v)) ≤ 1 →
      (create_session emptyDB testAuthData "user_1" "tokA" "sidA" 0).2.sessions.countP
        (fun s => decide (s.user_id = v)) ≤ 1) ∧
    get_current_user
      (create_session (create_session emptyDB testAuthData "user_1" "tokA" "sidA" 0).2
        testAuthData "user_2" "tokB" "sidB" 5).2
      (some "tokA") none 6 = .error 401) :=
  ⟨⟨rfl, by simp [emptyDB], by decide⟩,
   second_session_invalidates_first emptyDB testAuthData testAuthData
    "user_1" "tokA" "sidA" "user_2" "tokB" "sidB" 0 5 6 rfl
    (by simp [emptyDB]) (by decide)⟩

/-- Counterexample to claim C8 as stated: the cookie named session_token
is present (with the empty value) and yet the token is extracted from the
Authorization header, which authenticates the request; header fallback is
therefore not restricted to an absent cookie. -/
theorem cookie_present_header_wins :
    (some "" : Option String) ≠ none ∧
    get_session_token (some "") (some "Bearer sess_abc123") = some "sess_abc123" ∧
    get_current_user sampleSessionDB (some "") (some "Bearer sess_abc123") 10
      = .ok sampleUser := by
  refine ⟨by simp, rfl, rfl⟩

/-- Claim C8 (amended): the token is taken from the session_token cookie
when the cookie is present and non-empty; when the cookie is absent or
empty, it is taken from the Bearer Authorization header; when this yields
no token, or the empty token, every request fails 401; and when a token is
present but no session row with that token and a future expires_at exists,
the request fails 401 as well. -/
theorem auth_gate_semantics :
    (∀ (c : String) (hdr : Option String), c ≠ "" →
        get_session_token (some c) hdr = some c) ∧
    (∀ hdr : Option String, get_session_token none hdr = headerToken hdr ∧
        get_session_token (some "") hdr = headerToken hdr) ∧
    (∀ (db : DB) (cookie hdr : Option String) (now : Nat),
        (get_session_token cookie hdr = none ∨ get_session_token cookie hdr = some "") →
        get_current_user db cookie hdr now = .error 401) ∧
    (∀ (db : DB) (cookie hdr : Option String) (now : Nat) (t : String),
        get_session_token cookie hdr = some t → t ≠ "" →
        (∀ s ∈ db.sessions, ¬(s.session_token = t ∧ now < s.expires_at)) →
        get_current_user db cookie hdr now = .error 401) := by
  refine ⟨?_, ?_, ?_, ?_⟩
  · intro c hdr hc
    simp [get_session_token, hc]
  · intro hdr
    exact ⟨rfl, rfl⟩
  · intro db cookie hdr now h
    rcases h with h | h <;> simp [get_current_user, h]
  · intro db cookie hdr now t ht htne hnone
    have hres : resolveSession db t now = none := by
      simp only [resolveSession]
      have hn : (db.sessions.find?
          (fun s => decide (s.session_token = t ∧ now < s.expires_at))) = none := by
        rw [List.find?_eq_none]
        intro x hx
        simp
        intro h1
        exact Nat.le_of_not_lt (fun h2 => hnone x hx ⟨h1, h2⟩)
      rw [hn]
    simp [get_current_user, ht, htne, hres]

/-- Witness for claim C8 (amended) exercising the expired-or-missing
session strand at a concrete store and token. -/
theorem auth_gate_semantics_witness :
    get_session_token none (some "Bearer ghost_token") = some "ghost_token" ∧
    ("ghost_token" : String) ≠ "" ∧
    (∀ s ∈ sampleSessionDB.sessions,
      ¬(s.session_token = "ghost_token" ∧ (10 : Nat) < s.expires_at)) ∧
    get_current_user sampleSessionDB none (some "Bearer ghost_token") 10 = .error 401 :=
  ⟨rfl, by decide, by decide,
   auth_gate_semantics.2.2.2 sampleSessionDB none (some "Bearer ghost_token") 10
    "ghost_token" rfl (by decide) (by decide)⟩

end TensorX
